import Mathlib

/-
Verification of the A4 grid-layout barcode placement engine of the
dashboard-generator repository.

The placement loop lives in two near-identical call sites:
  - src/barcode_app.py, generate_pdf_from_numbers (lines 122-184)
  - src/eg.py, generate_pdf_from_excel (lines 99-223)
Both first try to render a barcode image per label value (a label whose
image generation raised is absent from the barcode_images dict), then run

    for idx, number in enumerate(numbers):
        if number not in barcode_images:
            continue
        row = (idx % (cols * rows)) // cols
        col = (idx % (cols * rows)) % cols
        if idx > 0 and idx % (cols * rows) == 0:
            c.showPage()
            row = 0
            col = 0
        x = margin_x + (col * cell_width) + (cell_width * 0.05)
        y = page_height - margin_y - ((row + 1) * cell_height) + (cell_height * 0.05)
        ...

The embedding below models this loop over an abstract oracle
hasImage : String → Bool standing for membership in barcode_images
(the outcome of the external image-producing collaborator), and the
coordinate arithmetic over ℚ.
-/

namespace BarcodeGen

/-- Events emitted by the PDF layout loop: a page break (canvas.showPage)
or the drawing of the barcode for the label at a given 0-based input
ordinal, on a given 0-based physical page, at a given grid row and column.
The page of a draw is the number of showPage calls made before it. -/
inductive LayoutEvent where
  | pageBreak : LayoutEvent
  | draw (idx page row col : Nat) : LayoutEvent
deriving DecidableEq

/-- Embedding of the placement loop of barcode_app.generate_pdf_from_numbers
(lines 150-176) and eg.generate_pdf_from_excel (lines 172-208).  `idx` is the
enumerate counter, `page` the number of showPage calls so far (eg.py tracks it
as page_num - 1).  A label not in barcode_images is skipped by `continue`
before the showPage test; in the showPage branch the code reassigns
row = 0, col = 0, which coincides with the formulas since idx % cap = 0. -/
def layoutLoop (cols rows : Nat) (hasImage : String → Bool) :
    List String → Nat → Nat → List LayoutEvent
  | [], _, _ => []
  | number :: rest, idx, page =>
    if hasImage number then
      if 0 < idx ∧ idx % (cols * rows) = 0 then
        LayoutEvent.pageBreak :: LayoutEvent.draw idx (page + 1) 0 0 ::
          layoutLoop cols rows hasImage rest (idx + 1) (page + 1)
      else
        LayoutEvent.draw idx page (idx % (cols * rows) / cols) (idx % (cols * rows) % cols) ::
          layoutLoop cols rows hasImage rest (idx + 1) page
    else
      layoutLoop cols rows hasImage rest (idx + 1) page

/-- The whole placement pass: the enumerate counter starts at 0 and no page
break has happened yet (a fresh canvas; nothing carries over between calls). -/
def layout (cols rows : Nat) (hasImage : String → Bool) (numbers : List String) :
    List LayoutEvent :=
  layoutLoop cols rows hasImage numbers 0 0

/-- The draw events of an event list, as (ordinal, page, row, col) tuples. -/
def draws (evts : List LayoutEvent) : List (Nat × Nat × Nat × Nat) :=
  evts.filterMap fun e =>
    match e with
    | LayoutEvent.draw i p r c => some (i, p, r, c)
    | LayoutEvent.pageBreak => none

/-- The input ordinal carried by an event, if any. -/
def ordinalOf : LayoutEvent → Option Nat
  | LayoutEvent.draw i _ _ _ => some i
  | LayoutEvent.pageBreak => none

/-- The page indices of all draw events. -/
def pagesOf (evts : List LayoutEvent) : List Nat :=
  (draws evts).map fun q => q.2.1

/-- Stated from the spec, for comparison with the code: the events the spec
prescribes for the label at ordinal i — a page-break marker exactly when
i mod capacity = 0 and i > 0, emitted before the label's draw, and the draw
at page i div capacity, row (i mod capacity) div C, col (i mod capacity) mod C. -/
def specBlock (cols rows i : Nat) : List LayoutEvent :=
  (if 0 < i ∧ i % (cols * rows) = 0 then [LayoutEvent.pageBreak] else []) ++
    [LayoutEvent.draw i (i / (cols * rows)) (i % (cols * rows) / cols)
      (i % (cols * rows) % cols)]

/-- An event with page, row and col erased: page-break marker or draw marker
with its input ordinal. -/
inductive Marker where
  | brk : Marker
  | drw (idx : Nat) : Marker
deriving DecidableEq

/-- Erase page, row and col from an event. -/
def markerOf : LayoutEvent → Marker
  | LayoutEvent.pageBreak => Marker.brk
  | LayoutEvent.draw i _ _ _ => Marker.drw i

/-- n distinct sample labels "0", "1", ... -/
def demoLabels (n : Nat) : List String := (List.range n).map toString

/-- An image oracle under which generation of label "c" failed. -/
def dropC : String → Bool := fun s => !(s == "c")

/-- An image oracle under which generation of label "b" failed. -/
def dropB : String → Bool := fun s => !(s == "b")

/-- Dividing the predecessor: idx / cap counts one more than (idx - 1) / cap
exactly when cap divides idx. -/
lemma pred_div (cap idx : Nat) (h0 : 0 < idx) :
    idx / cap = (idx - 1) / cap + (if idx % cap = 0 then 1 else 0) := by
  have h1 : idx - 1 + 1 = idx := by omega
  have h2 := Nat.succ_div (idx - 1) cap
  rw [h1] at h2
  rw [h2]
  congr 1
  simp [Nat.dvd_iff_mod_eq_zero]

/-- Unfolding a bind over List.range (n+1) at the front. -/
lemma range_succ_flatMap {α : Type} (f : Nat → List α) (n : Nat) :
    (List.range (n + 1)).flatMap f = f 0 ++ (List.range n).flatMap fun j => f (j + 1) := by
  induction n with
  | zero => simp [List.range_succ]
  | succ n ih =>
      rw [List.range_succ, List.flatMap_append, ih, List.range_succ, List.flatMap_append]
      simp [List.append_assoc]

/-- Normal form of the loop when every label in sight has an image: starting
at counter idx with page = (idx - 1) / capacity showPage calls done, the events
are exactly the spec blocks of ordinals idx, idx+1, ... -/
lemma layoutLoop_allOk (cols rows : Nat) (hasImage : String → Bool)
    (l : List String) :
    ∀ idx page : Nat, (∀ s ∈ l, hasImage s = true) →
      page = (idx - 1) / (cols * rows) →
      layoutLoop cols rows hasImage l idx page =
        (List.range l.length).flatMap fun j => specBlock cols rows (idx + j) := by
  induction l with
  | nil =>
      intro idx page _ _
      simp [layoutLoop]
  | cons a l ih =>
      intro idx page hall hp
      have ha : hasImage a = true := hall a (List.mem_cons_self a l)
      have hl : ∀ s ∈ l, hasImage s = true := fun s hs =>
        hall s (List.mem_cons_of_mem a hs)
      have hfun : (fun j => specBlock cols rows (idx + (j + 1))) =
          fun j => specBlock cols rows (idx + 1 + j) := by
        funext j
        congr 1
        omega
      have hrange : (List.range (a :: l).length).flatMap
            (fun j => specBlock cols rows (idx + j)) =
          specBlock cols rows idx ++
            (List.range l.length).flatMap fun j => specBlock cols rows (idx + 1 + j) := by
        rw [List.length_cons, range_succ_flatMap]
        rw [hfun]
        simp
      rw [hrange]
      by_cases hb : 0 < idx ∧ idx % (cols * rows) = 0
      · have hdiv := pred_div (cols * rows) idx hb.1
        rw [if_pos hb.2] at hdiv
        have hpage : page + 1 = idx / (cols * rows) := by rw [hdiv, ← hp]
        have hrec := ih (idx + 1) (page + 1) hl (by
          have : idx + 1 - 1 = idx := by omega
          rw [this, hdiv, ← hp])
        simp only [layoutLoop, ha, if_true, if_pos hb]
        rw [hrec, specBlock, if_pos hb, hb.2]
        simp [hpage]
      · have hpage : page = idx / (cols * rows) := by
          rcases Nat.eq_zero_or_pos idx with h0 | h0
          · subst h0
            simpa using hp
          · have hm : ¬ idx % (cols * rows) = 0 := by
              intro hmm
              exact hb ⟨h0, hmm⟩
            have hdiv := pred_div (cols * rows) idx h0
            rw [if_neg hm] at hdiv
            rw [hdiv, Nat.add_zero, ← hp]
        have hrec := ih (idx + 1) page hl (by
          have : idx + 1 - 1 = idx := by omega
          rw [this, ← hpage])
        simp only [layoutLoop, ha, if_true, if_neg hb]
        rw [hrec, specBlock, if_neg hb]
        simp [hpage]

/-- Any draw event produced by the loop, image failures allowed: its row and
col are determined by its input ordinal alone (row = (i mod cap) div cols,
col = (i mod cap) mod cols), the ordinal lies in range, and the label at that
ordinal has an image.  In particular a failed label consumes its ordinal —
and hence its slot — but yields no draw event. -/
lemma draw_mem_layoutLoop (cols rows : Nat) (hasImage : String → Bool)
    (l : List String) :
    ∀ idx page i p r c : Nat,
      LayoutEvent.draw i p r c ∈ layoutLoop cols rows hasImage l idx page →
      idx ≤ i ∧ i < idx + l.length ∧
        r = i % (cols * rows) / cols ∧ c = i % (cols * rows) % cols ∧
        ∃ s, l[i - idx]? = some s ∧ hasImage s = true := by
  induction l with
  | nil =>
      intro idx page i p r c hmem
      simp [layoutLoop] at hmem
  | cons a l ih =>
      intro idx page i p r c hmem
      by_cases ha : hasImage a = true
      · by_cases hb : 0 < idx ∧ idx % (cols * rows) = 0
        · simp only [layoutLoop, ha, if_true, if_pos hb, List.mem_cons] at hmem
          rcases hmem with h | h | h
          · exact absurd h (by simp)
          · obtain ⟨hi, hpp, hr, hc⟩ := LayoutEvent.draw.inj h
            refine ⟨by omega, by simp [List.length_cons]; omega, ?_, ?_, a, ?_, ha⟩
            · rw [hr, hi, hb.2]
              simp
            · rw [hc, hi, hb.2]
              simp
            · rw [hi]
              simp
          · obtain ⟨h1, h2, h3, h4, s, h5, h6⟩ := ih (idx + 1) (page + 1) i p r c h
            refine ⟨by omega, by simp [List.length_cons]; omega, h3, h4, s, ?_, h6⟩
            have hd : i - idx = (i - (idx + 1)) + 1 := by omega
            rw [hd]
            simpa using h5
        · simp only [layoutLoop, ha, if_true, if_neg hb, List.mem_cons] at hmem
          rcases hmem with h | h
          · obtain ⟨hi, hpp, hr, hc⟩ := LayoutEvent.draw.inj h
            refine ⟨by omega, by simp [List.length_cons]; omega, ?_, ?_, a, ?_, ha⟩
            · rw [hr, hi]
            · rw [hc, hi]
            · rw [hi]
              simp
          · obtain ⟨h1, h2, h3, h4, s, h5, h6⟩ := ih (idx + 1) page i p r c h
            refine ⟨by omega, by simp [List.length_cons]; omega, h3, h4, s, ?_, h6⟩
            have hd : i - idx = (i - (idx + 1)) + 1 := by omega
            rw [hd]
            simpa using h5
      · simp only [layoutLoop, ha, if_false, Bool.false_eq_true] at hmem
        have hmem2 : LayoutEvent.draw i p r c ∈ layoutLoop cols rows hasImage l (idx + 1) page := by
          simpa [ha] using hmem
        obtain ⟨h1, h2, h3, h4, s, h5, h6⟩ := ih (idx + 1) page i p r c hmem2
        refine ⟨by omega, by simp [List.length_cons]; omega, h3, h4, s, ?_, h6⟩
        have hd : i - idx = (i - (idx + 1)) + 1 := by omega
        rw [hd]
        simpa using h5

/-- Marker skeleton of the loop for an arbitrary image oracle: the page-break
and draw markers, in order, with a break exactly before the draw of a label
that has an image and sits at a boundary ordinal (positive multiple of the
capacity); a label without an image contributes nothing at all. -/
lemma layoutLoop_markers (cols rows : Nat) (hasImage : String → Bool)
    (l : List String) :
    ∀ idx page : Nat,
      (layoutLoop cols rows hasImage l idx page).map markerOf =
        (List.range l.length).flatMap fun j =>
          match l[j]? with
          | some s =>
              if hasImage s then
                (if 0 < idx + j ∧ (idx + j) % (cols * rows) = 0 then [Marker.brk] else []) ++
                  [Marker.drw (idx + j)]
              else []
          | none => [] := by
  induction l with
  | nil =>
      intro idx page
      simp [layoutLoop]
  | cons a l ih =>
      intro idx page
      have hfun : (fun j => (match (a :: l)[j + 1]? with
            | some s =>
                if hasImage s then
                  (if 0 < idx + (j + 1) ∧ (idx + (j + 1)) % (cols * rows) = 0 then
                    [Marker.brk] else []) ++ [Marker.drw (idx + (j + 1))]
                else []
            | none => ([] : List Marker))) =
          fun j => (match l[j]? with
            | some s =>
                if hasImage s then
                  (if 0 < (idx + 1) + j ∧ ((idx + 1) + j) % (cols * rows) = 0 then
                    [Marker.brk] else []) ++ [Marker.drw ((idx + 1) + j)]
                else []
            | none => ([] : List Marker)) := by
        funext j
        have hidx : idx + (j + 1) = (idx + 1) + j := by omega
        simp [hidx]
      rw [List.length_cons, range_succ_flatMap, hfun]
      by_cases ha : hasImage a = true
      · by_cases hb : 0 < idx ∧ idx % (cols * rows) = 0
        · simp only [layoutLoop, ha, if_true, if_pos hb]
          simp only [List.map_cons, markerOf]
          rw [ih (idx + 1) (page + 1)]
          simp [ha, hb]
        · simp only [layoutLoop, ha, if_true, if_neg hb]
          simp only [List.map_cons, markerOf]
          rw [ih (idx + 1) page]
          simp [ha, hb]
      · simp only [layoutLoop, ha, if_false, Bool.false_eq_true]
        rw [ih (idx + 1) page]
        simp [ha]

/-- draws distributes over append. -/
lemma draws_append (l1 l2 : List LayoutEvent) :
    draws (l1 ++ l2) = draws l1 ++ draws l2 := by
  simp [draws, List.filterMap_append]

/-- draws distributes over flatMap. -/
lemma draws_flatMap (l : List Nat) (f : Nat → List LayoutEvent) :
    draws (l.flatMap f) = l.flatMap fun i => draws (f i) := by
  induction l with
  | nil => simp [draws]
  | cons a l ih => rw [List.flatMap_cons, draws_append, ih, List.flatMap_cons]

/-- A spec block contributes exactly one draw tuple. -/
lemma draws_specBlock (cols rows i : Nat) :
    draws (specBlock cols rows i) =
      [(i, i / (cols * rows), i % (cols * rows) / cols, i % (cols * rows) % cols)] := by
  by_cases hb : 0 < i ∧ i % (cols * rows) = 0 <;> simp [specBlock, draws, hb]

/-- With every image generated, the draw tuples of the whole pass are exactly
(i, i div cap, (i mod cap) div cols, (i mod cap) mod cols) for i = 0, ..., n-1. -/
lemma draws_layout_allOk (cols rows : Nat) (hasImage : String → Bool)
    (numbers : List String) (hall : ∀ s ∈ numbers, hasImage s = true) :
    draws (layout cols rows hasImage numbers) =
      (List.range numbers.length).map fun i =>
        (i, i / (cols * rows), i % (cols * rows) / cols, i % (cols * rows) % cols) := by
  rw [layout, layoutLoop_allOk cols rows hasImage numbers 0 0 hall (by simp)]
  rw [draws_flatMap]
  have hfun : (fun i => draws (specBlock cols rows (0 + i))) =
      fun i => [(i, i / (cols * rows), i % (cols * rows) / cols, i % (cols * rows) % cols)] := by
    funext i
    rw [Nat.zero_add, draws_specBlock]
  rw [hfun]
  induction (List.range numbers.length) with
  | nil => rfl
  | cons a t ih => rw [List.flatMap_cons, List.map_cons, List.singleton_append, ih]

/-- Image of division by cap over an initial segment: the quotients i / cap for
i < n are exactly the pages 0, ..., ceil(n / cap) - 1. -/
lemma image_div_range (n cap : Nat) (hcap : 0 < cap) :
    (Finset.range n).image (fun i => i / cap) = Finset.range ((n + cap - 1) / cap) := by
  ext k
  simp only [Finset.mem_image, Finset.mem_range]
  constructor
  · rintro ⟨i, hi, rfl⟩
    have hn : 0 < n := by omega
    have h1 : n + cap - 1 = (n - 1) + cap := by omega
    rw [h1, Nat.add_div_right _ hcap]
    have h2 : i / cap ≤ (n - 1) / cap := Nat.div_le_div_right (by omega)
    omega
  · intro hk
    have hn : 0 < n := by
      by_contra hcon
      have hn0 : n = 0 := by omega
      subst hn0
      have h00 : 0 + cap - 1 = cap - 1 := by omega
      rw [h00] at hk
      have := Nat.div_eq_of_lt (show cap - 1 < cap by omega)
      omega
    have h1 : n + cap - 1 = (n - 1) + cap := by omega
    rw [h1, Nat.add_div_right _ hcap] at hk
    have hk2 : k ≤ (n - 1) / cap := by omega
    refine ⟨k * cap, ?_, Nat.mul_div_cancel _ hcap⟩
    have h2 : k * cap ≤ ((n - 1) / cap) * cap := Nat.mul_le_mul_right _ hk2
    have h3 : ((n - 1) / cap) * cap ≤ n - 1 := Nat.div_mul_le_self _ _
    omega

/-- Page geometry as set up in generate_pdf_from_numbers (barcode_app.py
lines 139-148) and generate_pdf_from_excel (eg.py lines 150-162): page size,
margins (hardcoded to 12mm and 15mm in the code), column and row counts.
Lengths are rationals in an arbitrary length unit — the code works in points;
the A4 instance below is stated in millimetres, which only rescales ratios. -/
structure PageGeometry where
  pageWidth : ℚ
  pageHeight : ℚ
  marginX : ℚ
  marginY : ℚ
  cols : ℕ
  rows : ℕ

/-- cell_width = (page_width - 2 margin_x) / cols (lines 144, 147). -/
def cellWidth (g : PageGeometry) : ℚ := (g.pageWidth - 2 * g.marginX) / (g.cols : ℚ)

/-- cell_height = (page_height - 2 margin_y) / rows (lines 145, 148). -/
def cellHeight (g : PageGeometry) : ℚ := (g.pageHeight - 2 * g.marginY) / (g.rows : ℚ)

/-- The cell's left edge, margin_x + col * cell_width (the spec's cell origin,
appearing in the code inside the x assignment of line 162). -/
def cellX (g : PageGeometry) (col : ℕ) : ℚ := g.marginX + (col : ℚ) * cellWidth g

/-- The cell's bottom edge in the canvas's bottom-left-origin coordinates,
page_height - margin_y - (row + 1) * cell_height (the spec's top-left to
bottom-left conversion, appearing inside the y assignment of line 163). -/
def cellBottomY (g : PageGeometry) (row : ℕ) : ℚ :=
  g.pageHeight - g.marginY - ((row : ℚ) + 1) * cellHeight g

/-- x of line 162: margin_x + col * cell_width + cell_width * 0.05. -/
def imageX (g : PageGeometry) (col : ℕ) : ℚ :=
  g.marginX + (col : ℚ) * cellWidth g + cellWidth g * (5 / 100)

/-- y of line 163: page_height - margin_y - (row+1) * cell_height
+ cell_height * 0.05 — the bottom edge of the drawImage box. -/
def imageY (g : PageGeometry) (row : ℕ) : ℚ :=
  g.pageHeight - g.marginY - ((row : ℚ) + 1) * cellHeight g + cellHeight g * (5 / 100)

/-- barcode_width = cell_width * 0.9 (line 165). -/
def imageWidth (g : PageGeometry) : ℚ := cellWidth g * (9 / 10)

/-- barcode_height = cell_height * 0.75 (line 166). -/
def imageHeight (g : PageGeometry) : ℚ := cellHeight g * (75 / 100)

/-- text_y = y - cell_height * 0.15 (line 172): the caption baseline. -/
def captionY (g : PageGeometry) (row : ℕ) : ℚ := imageY g row - cellHeight g * (15 / 100)

/-- The caption string's start, x + barcode_width / 2 - 15 (line 174);
15 is in canvas units (points). -/
def captionX (g : PageGeometry) (col : ℕ) : ℚ := imageX g col + imageWidth g / 2 - 15

/-- The A4 geometry of both call sites, in millimetres: 210 x 297 page,
margins 12 and 15, grid 4 x 8. -/
def a4Geometry : PageGeometry := ⟨210, 297, 12, 15, 4, 8⟩

/-- Failure modes relevant to the geometry-validation claim: zeroDivisionError
is Python's ZeroDivisionError, raised by available_width / cols when
cols = 0 (barcode_app.py line 147; similarly rows at line 148);
configurationError stands for the ConfigurationError the spec names, which
the code never defines nor raises — present only so the claim is statable. -/
inductive PdfError where
  | zeroDivisionError : PdfError
  | configurationError : PdfError
deriving DecidableEq

/-- generate_pdf_from_numbers (barcode_app.py lines 122-184) with the canvas
and image side effects abstracted: with cols = 0 or rows = 0 the cell-size
divisions raise ZeroDivisionError before the placement loop runs; otherwise
the placement loop runs.  The code performs no geometry validation at all. -/
def generatePdfFromNumbers (numbers : List String) (hasImage : String → Bool)
    (cols rows : ℕ) : Except PdfError (List LayoutEvent) :=
  if cols = 0 ∨ rows = 0 then Except.error PdfError.zeroDivisionError
  else Except.ok (layout cols rows hasImage numbers)

/-- The arguments of one layout invocation. -/
structure LayoutCall where
  cols : ℕ
  rows : ℕ
  hasImage : String → Bool
  numbers : List String

/-- Run one invocation: every call starts from a fresh canvas and a fresh
enumerate counter; no module state flows in or out. -/
def runLayout (a : LayoutCall) : List LayoutEvent :=
  layout a.cols a.rows a.hasImage a.numbers

/-- A non-empty value read from a worksheet cell: openpyxl yields Python ints
for integral numeric cells and strings for text cells; blank cells are the
none of the Option layer at the use sites. -/
inductive CellValue where
  | intV (n : ℤ) : CellValue
  | strV (s : String) : CellValue
deriving DecidableEq

/-- Value of a non-empty all-digit character list, none otherwise. -/
def digitsVal (l : List Char) : Option ℕ :=
  if l ≠ [] ∧ l.all Char.isDigit then
    some (l.foldl (fun a c => a * 10 + (c.toNat - 48)) 0)
  else none

/-- Strip leading and trailing whitespace from a character list. -/
def stripWs (l : List Char) : List Char :=
  ((l.dropWhile Char.isWhitespace).reverse.dropWhile Char.isWhitespace).reverse

/-- Python's int(str): optional surrounding whitespace, an optional sign, then
decimal digits; anything else raises ValueError (modelled as none). -/
def pyInt (s : String) : Option ℤ :=
  match stripWs s.data with
  | '-' :: rest => (digitsVal rest).map (fun n => -(n : ℤ))
  | '+' :: rest => (digitsVal rest).map (fun n => (n : ℤ))
  | l => (digitsVal l).map (fun n => (n : ℤ))

/-- int(cell_value) on a non-empty cell. -/
def cellToInt : CellValue → Option ℤ
  | CellValue.intV n => some n
  | CellValue.strV s => pyInt s

/-- Column-A extraction of generate_pdf_api (barcode_app.py lines 416-423)
and generate_pdf_from_excel (eg.py lines 112-124): the argument models cells
A2..A(max_row) in sheet order; a None cell, and a cell whose int() raises,
are skipped silently; a convertible cell contributes str(int(value)). -/
def extractNumbers (colA : List (Option CellValue)) : List String :=
  colA.filterMap fun oc =>
    match oc with
    | none => none
    | some v => (cellToInt v).map (fun n => toString n)

/-- create_excel_api (barcode_app.py lines 196-217): a count outside 1..5000
is rejected with a 400 error before any Excel file is created; otherwise the
generated numbers are start_num + i for i in range(count). -/
def createExcelNumbers (startNum count : ℤ) : Except String (List ℤ) :=
  if count < 1 ∨ 5000 < count then Except.error "Count must be between 1 and 5000"
  else Except.ok ((List.range count.toNat).map fun i => startNum + Int.ofNat i)

/-- Stated from the spec, with the failure behaviour the code actually has:
per ordinal i in input order, a label without an image contributes nothing;
a label with an image contributes a break marker — exactly when 0 < i and
i mod capacity = 0 — immediately followed by its draw marker. -/
def specMarkers (cols rows : ℕ) (hasImage : String → Bool) (numbers : List String) :
    List Marker :=
  (List.range numbers.length).flatMap fun i =>
    match numbers[i]? with
    | some s =>
        if hasImage s then
          (if 0 < i ∧ i % (cols * rows) = 0 then [Marker.brk] else []) ++ [Marker.drw i]
        else []
    | none => []

/-- The marker stream of a whole pass matches the per-ordinal description. -/
lemma layout_markers (cols rows : ℕ) (hasImage : String → Bool) (numbers : List String) :
    (layout cols rows hasImage numbers).map markerOf =
      specMarkers cols rows hasImage numbers := by
  rw [layout, layoutLoop_markers cols rows hasImage numbers 0 0, specMarkers]
  simp only [Nat.zero_add]

/-- C1 (amended): row and column of every draw are functions of its ordinal
alone — slot = i mod capacity, row = slot div C, col = slot mod C — and, when
every label's image was generated, the draw tuples are exactly
(i, i div capacity, slot div C, slot mod C) for i = 0..n-1, so pages are
assigned monotonically and gaplessly whatever the label strings are; with
C = 4, R = 8 and 35 labels, ordinal 32 lands on page 1, row 0, col 0. -/
theorem page_and_slot_assignment (cols rows : Nat) (_hc : 1 ≤ cols) (_hr : 1 ≤ rows)
    (numbers : List String) (hasImage : String → Bool) :
    (∀ i p r c : Nat, LayoutEvent.draw i p r c ∈ layout cols rows hasImage numbers →
      r = i % (cols * rows) / cols ∧ c = i % (cols * rows) % cols) ∧
    ((∀ s ∈ numbers, hasImage s = true) →
      draws (layout cols rows hasImage numbers) =
        (List.range numbers.length).map fun i =>
          (i, i / (cols * rows), i % (cols * rows) / cols, i % (cols * rows) % cols)) ∧
    (draws (layout 4 8 (fun _ => true) (demoLabels 35)))[32]? = some (32, 1, 0, 0) := by
  refine ⟨?_, ?_, ?_⟩
  · intro i p r c hmem
    obtain ⟨_, _, h3, h4, _⟩ :=
      draw_mem_layoutLoop cols rows hasImage numbers 0 0 i p r c hmem
    exact ⟨h3, h4⟩
  · intro hall
    exact draws_layout_allOk cols rows hasImage numbers hall
  · decide

/-- Witness for C1: the all-generated draw-tuple equation instantiated with
C = 4, R = 8 and the 35 sample labels. -/
theorem page_and_slot_assignment_witness :
    draws (layout 4 8 (fun _ => true) (demoLabels 35)) =
      (List.range (demoLabels 35).length).map fun i =>
        (i, i / (4 * 8), i % (4 * 8) / 4, i % (4 * 8) % 4) :=
  (page_and_slot_assignment 4 8 (by decide) (by decide) (demoLabels 35)
    (fun _ => true)).2.1 (fun s _ => rfl)

/-- C1 counterexample: capacity 2, labels "a","b","c","d", image of the
boundary label "c" (ordinal 2) missing: ordinal 3 is drawn with page 0, not
page 3 div 2 = 1 — the skipped boundary label suppressed the page advance. -/
theorem page_and_slot_assignment_cex :
    LayoutEvent.draw 3 0 1 0 ∈ layout 1 2 dropC ["a", "b", "c", "d"] ∧
    LayoutEvent.draw 3 (3 / (1 * 2)) 1 0 ∉ layout 1 2 dropC ["a", "b", "c", "d"] := by
  decide

/-- C2 (amended): the marker stream equals the per-ordinal blocks in which a
label with an image at a boundary ordinal (0 < i and i mod capacity = 0) gets
a page-break marker immediately before its draw marker, a label with an image
elsewhere gets only its draw marker, and a label without an image gets
nothing; when n = capacity and every image was generated, no page break is
signaled at all and every label lands on page 0. -/
theorem page_break_signaling (cols rows : Nat) (numbers : List String)
    (hasImage : String → Bool) :
    (layout cols rows hasImage numbers).map markerOf =
      specMarkers cols rows hasImage numbers ∧
    (numbers.length = cols * rows → (∀ s ∈ numbers, hasImage s = true) →
      LayoutEvent.pageBreak ∉ layout cols rows hasImage numbers ∧
      ∀ q ∈ draws (layout cols rows hasImage numbers), q.2.1 = 0) := by
  refine ⟨layout_markers cols rows hasImage numbers, ?_⟩
  intro hlen hall
  have hform : layout cols rows hasImage numbers =
      (List.range numbers.length).flatMap fun j => specBlock cols rows (0 + j) :=
    layoutLoop_allOk cols rows hasImage numbers 0 0 hall (by simp)
  constructor
  · intro hmem
    rw [hform, List.mem_flatMap] at hmem
    obtain ⟨j, hj, hmemb⟩ := hmem
    rw [List.mem_range] at hj
    rw [specBlock] at hmemb
    by_cases hb : 0 < 0 + j ∧ (0 + j) % (cols * rows) = 0
    · have hj2 : (0 + j) % (cols * rows) = j := by
        rw [Nat.zero_add]
        exact Nat.mod_eq_of_lt (by omega)
      omega
    · rw [if_neg hb] at hmemb
      simp at hmemb
  · intro q hq
    rw [draws_layout_allOk cols rows hasImage numbers hall, List.mem_map] at hq
    obtain ⟨i, hi, hq2⟩ := hq
    rw [List.mem_range] at hi
    rw [← hq2]
    show i / (cols * rows) = 0
    exact Nat.div_eq_of_lt (by omega)

/-- Witness for C2: two labels filling a 1 x 2 page exactly, every image
generated — no page break is signaled. -/
theorem page_break_signaling_witness :
    LayoutEvent.pageBreak ∉ layout 1 2 (fun _ => true) (demoLabels 2) :=
  ((page_break_signaling 1 2 (demoLabels 2) (fun _ => true)).2 (by decide)
    (fun s _ => rfl)).1

/-- C2 counterexample: capacity 2, labels "a","b","c","d", image of "c"
missing: ordinal 2 satisfies i > 0 and i mod capacity = 0 and its label
exists, yet no page break whatsoever is signaled. -/
theorem page_break_signaling_cex :
    (0 < 2 ∧ 2 % (1 * 2) = 0 ∧ (["a", "b", "c", "d"] : List String)[2]? = some "c") ∧
    LayoutEvent.pageBreak ∉ layout 1 2 dropC ["a", "b", "c", "d"] := by
  decide

/-- C3 (amended): a failed label still consumes its ordinal and hence its
slot — row and col of every draw are functions of its ordinal alone, and the
label immediately after a failed one occupies the next slot — but no result
is emitted for the failed label itself: it is skipped entirely rather than
marked failed-but-positioned, so no error placeholder can be drawn. -/
theorem failed_label_slot_consumption (cols rows : Nat) (numbers : List String)
    (hasImage : String → Bool) :
    (∀ i p r c : Nat, LayoutEvent.draw i p r c ∈ layout cols rows hasImage numbers →
      r = i % (cols * rows) / cols ∧ c = i % (cols * rows) % cols ∧
        ∃ s, numbers[i]? = some s ∧ hasImage s = true) ∧
    (∀ (i : Nat) (s : String), numbers[i]? = some s → hasImage s = false →
      ∀ e ∈ layout cols rows hasImage numbers, ordinalOf e ≠ some i) := by
  constructor
  · intro i p r c hmem
    obtain ⟨h1, h2, h3, h4, s, h5, h6⟩ :=
      draw_mem_layoutLoop cols rows hasImage numbers 0 0 i p r c hmem
    refine ⟨h3, h4, s, ?_, h6⟩
    simpa using h5
  · intro i s hs hfail e hmem hord
    cases e with
    | pageBreak => simp [ordinalOf] at hord
    | draw j p r c =>
        have hj : j = i := by simpa [ordinalOf] using hord
        subst hj
        obtain ⟨_, _, _, _, t, h5, h6⟩ :=
          draw_mem_layoutLoop cols rows hasImage numbers 0 0 j p r c hmem
        rw [Nat.sub_zero, hs] at h5
        rw [(Option.some.inj h5).symm, hfail] at h6
        exact Bool.false_ne_true h6

/-- Witness for C3: with the image of "b" missing, the next label "c"
(ordinal 2) occupies slot 2 — row 0, col 2 — not the failed label's slot 1. -/
theorem failed_label_slot_consumption_witness :
    (LayoutEvent.draw 2 0 0 2 ∈ layout 4 8 dropB ["a", "b", "c"]) ∧
    (0 = 2 % (4 * 8) / 4 ∧ 2 = 2 % (4 * 8) % 4 ∧
      ∃ s, (["a", "b", "c"] : List String)[2]? = some s ∧ dropB s = true) :=
  ⟨by decide,
    (failed_label_slot_consumption 4 8 ["a", "b", "c"] dropB).1 2 0 0 2 (by decide)⟩

/-- C3 counterexample: the image of label "b" at ordinal 1 failed, and no
event at all carries ordinal 1 — the failed label is skipped with nothing
emitted, not marked failed-but-positioned. -/
theorem failed_label_slot_consumption_cex :
    dropB "b" = false ∧
    ¬ ∃ e ∈ layout 4 8 dropB ["a", "b", "c"], ordinalOf e = some 1 := by
  decide

/-- The finset of a mapped list is the image of the list's finset. -/
lemma list_toFinset_map (l : List Nat) (f : Nat → Nat) :
    (l.map f).toFinset = l.toFinset.image f := by
  ext x
  simp [List.mem_toFinset, Finset.mem_image, List.mem_map]

/-- The finset of List.range n is Finset.range n. -/
lemma list_toFinset_range (n : Nat) :
    (List.range n).toFinset = Finset.range n := by
  ext x
  simp [List.mem_toFinset, List.mem_range, Finset.mem_range]

/-- C4 (amended): when every label's image was generated, the number of
distinct pages bearing draws equals ceil(n / capacity) — computed as
(n + capacity - 1) div capacity — and the empty label sequence yields the
empty event list rather than an error. -/
theorem page_count_ceiling (cols rows : Nat) (hc : 1 ≤ cols) (hr : 1 ≤ rows)
    (numbers : List String) (hasImage : String → Bool)
    (hall : ∀ s ∈ numbers, hasImage s = true) :
    (pagesOf (layout cols rows hasImage numbers)).toFinset.card =
      (numbers.length + cols * rows - 1) / (cols * rows) ∧
    layout cols rows hasImage [] = [] := by
  constructor
  · have hcap : 0 < cols * rows := Nat.mul_pos hc hr
    rw [pagesOf, draws_layout_allOk cols rows hasImage numbers hall, List.map_map]
    have hcomp : ((fun q : Nat × Nat × Nat × Nat => q.2.1) ∘ fun i =>
        (i, i / (cols * rows), i % (cols * rows) / cols, i % (cols * rows) % cols)) =
        fun i => i / (cols * rows) := rfl
    rw [hcomp, list_toFinset_map, list_toFinset_range,
      image_div_range numbers.length (cols * rows) hcap]
    exact Finset.card_range _
  · rfl

/-- Witness for C4: four labels on 1 x 2 pages, every image generated — two
distinct pages, matching ceil(4 / 2). -/
theorem page_count_ceiling_witness :
    (pagesOf (layout 1 2 (fun _ => true) (demoLabels 4))).toFinset.card =
      ((demoLabels 4).length + 1 * 2 - 1) / (1 * 2) :=
  (page_count_ceiling 1 2 (by decide) (by decide) (demoLabels 4) (fun _ => true)
    (fun s _ => rfl)).1

/-- C4 counterexample: four labels, capacity 2, image of boundary label "c"
missing: only one distinct page bears draws, although ceil(4 / 2) = 2. -/
theorem page_count_ceiling_cex :
    (pagesOf (layout 1 2 dropC ["a", "b", "c", "d"])).toFinset.card = 1 ∧
    ((["a", "b", "c", "d"] : List String).length + 1 * 2 - 1) / (1 * 2) = 2 := by
  decide

/-- C5 (amended): for every placed label, the cell bottom follows the
top-left to bottom-left conversion y = page_height - margin_y -
(row + 1) * cell_height; the image rectangle is inset 5% of cell width on
each side and 5% of cell height at the bottom, occupies 90% of the cell
width and 75% of its height, is horizontally centred, and is anchored at the
bottom of the padded cell, leaving 20% of the cell height free above it; the
caption baseline sits 15% of cell height below the image rectangle's bottom
edge and starts 15 canvas units left of the image's horizontal centre. -/
theorem cell_placement_geometry (g : PageGeometry) (row col : Nat) :
    imageY g row = cellBottomY g row + cellHeight g * (5 / 100) ∧
    imageX g col = cellX g col + cellWidth g * (5 / 100) ∧
    imageWidth g = cellWidth g * (9 / 10) ∧
    imageHeight g = cellHeight g * (75 / 100) ∧
    imageX g col - cellX g col = cellX g col + cellWidth g - (imageX g col + imageWidth g) ∧
    cellBottomY g row + cellHeight g - (imageY g row + imageHeight g) =
      cellHeight g * (20 / 100) ∧
    captionY g row = imageY g row - cellHeight g * (15 / 100) ∧
    captionX g col = imageX g col + imageWidth g / 2 - 15 := by
  refine ⟨rfl, rfl, rfl, rfl, ?_, ?_, rfl, rfl⟩ <;>
    simp only [imageY, cellBottomY, imageX, cellX, imageHeight, imageWidth] <;>
    ring

/-- C5 counterexample: on A4 with a 4 x 8 grid, the top of the image box sits
20% of the cell height below the cell top — the box is not anchored toward
the top of the padded cell (which would put it 5% below) — and the caption
start is not the image's horizontal centre (it is 15 units to its left). -/
theorem cell_placement_geometry_cex :
    imageY a4Geometry 0 + imageHeight a4Geometry ≠
      cellBottomY a4Geometry 0 + cellHeight a4Geometry - cellHeight a4Geometry * (5 / 100) ∧
    captionX a4Geometry 0 ≠ imageX a4Geometry 0 + imageWidth a4Geometry / 2 := by
  constructor <;>
    norm_num [imageY, imageHeight, cellBottomY, cellHeight, captionX, imageX,
      imageWidth, cellWidth, a4Geometry]

/-- C6: cell_width = (page_width - 2 margin_x) / C and cell_height =
(page_height - 2 margin_y) / R; for the A4 geometry (210 x 297 mm, margins
12 and 15 mm, 4 x 8) this yields 93/2 = 46.5 mm and 267/8 = 33.375 mm. -/
theorem cell_dimension_formulas (g : PageGeometry) (_hc : 1 ≤ g.cols) (_hr : 1 ≤ g.rows) :
    cellWidth g = (g.pageWidth - 2 * g.marginX) / (g.cols : ℚ) ∧
    cellHeight g = (g.pageHeight - 2 * g.marginY) / (g.rows : ℚ) ∧
    cellWidth a4Geometry = 93 / 2 ∧ cellHeight a4Geometry = 267 / 8 := by
  refine ⟨rfl, rfl, ?_, ?_⟩ <;> norm_num [cellWidth, cellHeight, a4Geometry]

/-- Witness for C6 at the A4 geometry. -/
theorem cell_dimension_formulas_witness :
    (1 ≤ a4Geometry.cols) ∧ cellWidth a4Geometry = 93 / 2 :=
  ⟨by decide, (cell_dimension_formulas a4Geometry (by decide) (by decide)).2.2.1⟩

/-- C7 (amended): a geometry with zero columns or zero rows makes the call
fail synchronously with Python's ZeroDivisionError at the cell-size
divisions, before any placement is computed and producing no placement
results. -/
theorem invalid_geometry_failure (numbers : List String) (hasImage : String → Bool)
    (cols rows : Nat) (h : cols = 0 ∨ rows = 0) :
    generatePdfFromNumbers numbers hasImage cols rows =
      Except.error PdfError.zeroDivisionError := by
  rw [generatePdfFromNumbers, if_pos h]

/-- Witness for C7 at cols = 0. -/
theorem invalid_geometry_failure_witness :
    ((0 : Nat) = 0 ∨ (8 : Nat) = 0) ∧
    generatePdfFromNumbers ["1"] (fun _ => true) 0 8 =
      Except.error PdfError.zeroDivisionError :=
  ⟨Or.inl rfl, invalid_geometry_failure ["1"] (fun _ => true) 0 8 (Or.inl rfl)⟩

/-- C7 counterexample: with zero columns the failure is a ZeroDivisionError,
which is not a ConfigurationError — indeed no ConfigurationError class exists
anywhere in the code to be raised. -/
theorem invalid_geometry_failure_cex :
    generatePdfFromNumbers ["1"] (fun _ => true) 0 8 =
      Except.error PdfError.zeroDivisionError ∧
    PdfError.zeroDivisionError ≠ PdfError.configurationError :=
  ⟨rfl, by decide⟩

/-- C8: in any sequence of invocations, two calls with identical arguments
produce identical placement-event sequences — each run starts from a fresh
canvas, counter and page state, and no state flows between invocations. -/
theorem layout_deterministic (calls : List LayoutCall) (i j : Nat)
    (h : calls[i]? = calls[j]?) :
    (calls.map runLayout)[i]? = (calls.map runLayout)[j]? := by
  rw [List.getElem?_map, List.getElem?_map, h]

/-- A concrete invocation used by the determinism witness. -/
def demoCall : LayoutCall := ⟨4, 8, fun _ => true, demoLabels 3⟩

/-- Witness for C8: two identical back-to-back invocations give identical
results. -/
theorem layout_deterministic_witness :
    ([demoCall, demoCall] : List LayoutCall)[0]? =
      ([demoCall, demoCall] : List LayoutCall)[1]? ∧
    ([demoCall, demoCall].map runLayout)[0]? = ([demoCall, demoCall].map runLayout)[1]? :=
  ⟨rfl, layout_deterministic [demoCall, demoCall] 0 1 rfl⟩

/-- C9: extraction of labels from column A, rows 2 through the last row, in
sheet order: a blank (None) cell and a cell not coercible to int contribute
nothing — in particular the downstream layout is unchanged, so a skipped cell
consumes no slot — while a coercible cell contributes exactly the integer's
string form, in place. -/
theorem excel_extraction_semantics (xs ys : List (Option CellValue)) :
    (∀ oc : Option CellValue,
      (oc = none ∨ ∃ v, oc = some v ∧ cellToInt v = none) →
      extractNumbers (xs ++ oc :: ys) = extractNumbers (xs ++ ys)) ∧
    (∀ (v : CellValue) (n : ℤ), cellToInt v = some n →
      extractNumbers (xs ++ some v :: ys) =
        extractNumbers xs ++ toString n :: extractNumbers ys) ∧
    (∀ (cols rows : Nat) (hasImage : String → Bool) (oc : Option CellValue),
      (oc = none ∨ ∃ v, oc = some v ∧ cellToInt v = none) →
      layout cols rows hasImage (extractNumbers (xs ++ oc :: ys)) =
        layout cols rows hasImage (extractNumbers (xs ++ ys))) := by
  have hskip : ∀ oc : Option CellValue,
      (oc = none ∨ ∃ v, oc = some v ∧ cellToInt v = none) →
      extractNumbers (xs ++ oc :: ys) = extractNumbers (xs ++ ys) := by
    intro oc hoc
    rcases hoc with rfl | ⟨v, rfl, hv⟩
    · simp [extractNumbers, List.filterMap_append, List.filterMap_cons]
    · simp [extractNumbers, List.filterMap_append, List.filterMap_cons, hv]
  refine ⟨hskip, ?_, ?_⟩
  · intro v n hv
    simp [extractNumbers, List.filterMap_append, List.filterMap_cons, hv]
  · intro cols rows hasImage oc hoc
    rw [hskip oc hoc]

/-- Witness for C9: a non-numeric cell and a blank are skipped, an integral
cell 7 contributes "7". -/
theorem excel_extraction_semantics_witness :
    cellToInt (CellValue.intV 7) = some 7 ∧
    extractNumbers [some (CellValue.strV "x"), some (CellValue.intV 7), none] = ["7"] := by
  refine ⟨rfl, ?_⟩
  have h := (excel_extraction_semantics [some (CellValue.strV "x")] [none]).2.1
    (CellValue.intV 7) 7 rfl
  exact h.trans (by decide)

/-- C10: a count outside 1..5000 is rejected with the error response — no
number list, hence no Excel file, is produced — and any successful response
implies the count was in range and its numbers are exactly startNum + i for
i < count, consecutive and increasing. -/
theorem create_excel_count_validation (startNum count : ℤ) :
    ((count < 1 ∨ 5000 < count) →
      createExcelNumbers startNum count =
        Except.error "Count must be between 1 and 5000") ∧
    (∀ l : List ℤ, createExcelNumbers startNum count = Except.ok l →
      1 ≤ count ∧ count ≤ 5000 ∧ l.length = count.toNat ∧
      ∀ i : Nat, i < l.length → l[i]? = some (startNum + (i : ℤ))) := by
  constructor
  · intro h
    rw [createExcelNumbers, if_pos h]
  · intro l hl
    rw [createExcelNumbers] at hl
    by_cases h : count < 1 ∨ 5000 < count
    · rw [if_pos h] at hl
      exact absurd hl (by simp)
    · rw [if_neg h] at hl
      push_neg at h
      obtain ⟨h1, h2⟩ := h
      have hlist : l = (List.range count.toNat).map fun i => startNum + Int.ofNat i :=
        (Except.ok.inj hl).symm
      subst hlist
      refine ⟨by omega, by omega, by simp, ?_⟩
      intro i hi
      simp only [List.length_map, List.length_range] at hi
      rw [List.getElem?_map, List.getElem?_range hi]
      rfl

/-- Witness for C10: count 0 is rejected; count 3 from 253310001 yields the
three consecutive numbers, e.g. position 1 holds 253310001 + 1. -/
theorem create_excel_count_validation_witness :
    ((0 : ℤ) < 1 ∨ (5000 : ℤ) < 0) ∧
    createExcelNumbers 253310001 0 = Except.error "Count must be between 1 and 5000" ∧
    ([253310001, 253310002, 253310003] : List ℤ)[1]? = some (253310001 + ((1 : Nat) : ℤ)) := by
  refine ⟨Or.inl (by norm_num),
    (create_excel_count_validation 253310001 0).1 (Or.inl (by norm_num)), ?_⟩
  exact ((create_excel_count_validation 253310001 3).2
    [253310001, 253310002, 253310003] (by rfl)).2.2.2 1 (by decide)

end BarcodeGen
